import Mathlib

/-!
Shallow embedding of `src/fastapi_app/main.py` (fastapi-observability).

The service keeps two in-memory Python dicts, `products_db` and `orders_db`,
and exposes four handlers: `create_product`, `create_order`, `get_order` and
`stress_test`.  We model

* a Python dict as an association list `List (String × α)` with
  dict-assignment semantics (`dbInsert` replaces in place, else appends);
* the `float` fields `price` / `total` as `ℚ` (the code only adds prices,
  so exact arithmetic represents the computation structure);
* `stock` as `Int` (the code can drive it negative);
* `raise HTTPException` as an `Except` result, paired with the state at the
  moment of the raise (in the source no mutation precedes any raise);
* the two nondeterministic inputs of `create_order` — the uuid4 order id and
  the random payment outcome — as explicit parameters;
* the random floats of `stress_test` as an explicit input stream.
-/

namespace FastapiApp

/-- Python `class Product(BaseModel)`: id, name, price (float, modelled by ℚ),
stock (int). -/
structure Product where
  id : String
  name : String
  price : ℚ
  stock : Int
deriving DecidableEq

/-- Python `class Order(BaseModel)`: id, products (list of product ids), total
(float, modelled by ℚ), status (string). -/
structure Order where
  id : String
  products : List String
  total : ℚ
  status : String
deriving DecidableEq

/-- Model of `raise HTTPException(status_code=..., detail=...)`. -/
structure HTTPException where
  statusCode : Nat
  detail : String
deriving DecidableEq

deriving instance DecidableEq for Except

/-- Lookup in a Python dict modelled as an association list
(`db[k]` / `k in db`). -/
def dbLookup : List (String × α) → String → Option α
  | [], _ => none
  | (k, v) :: rest, key => if k = key then some v else dbLookup rest key

/-- Dict assignment `db[k] = v`: replace the binding in place if the key is
present, otherwise append (Python dicts keep insertion order). -/
def dbInsert : List (String × α) → String → α → List (String × α)
  | [], key, v => [(key, v)]
  | (k, w) :: rest, key, v =>
    if k = key then (key, v) :: rest else (k, w) :: dbInsert rest key v

/-- The two module-level dicts `products_db = {}` and `orders_db = {}`. -/
structure AppState where
  products_db : List (String × Product)
  orders_db : List (String × Order)
deriving DecidableEq

/-- Both dicts start empty. -/
def initialState : AppState := ⟨[], []⟩

/-- Handler `create_product`: reject a duplicate id with 400, otherwise store
the submitted record verbatim and return it. -/
def create_product (st : AppState) (product : Product) :
    Except HTTPException Product × AppState :=
  if (dbLookup st.products_db product.id).isSome then
    (.error ⟨400, "Product ID already exists"⟩, st)
  else
    (.ok product,
      { st with products_db := dbInsert st.products_db product.id product })

/-- The validation / total-accumulation loop of `create_order`:
`for pid in product_ids: ... total += product.price`, raising 404 on an
unknown id and 400 on `stock <= 0`, checked in list order. -/
def computeTotal (db : List (String × Product)) :
    List String → ℚ → Except HTTPException ℚ
  | [], total => .ok total
  | pid :: rest, total =>
    match dbLookup db pid with
    | none => .error ⟨404, "Product " ++ pid ++ " not found"⟩
    | some product =>
      if product.stock ≤ 0 then
        .error ⟨400, "Product " ++ pid ++ " out of stock"⟩
      else
        computeTotal db rest (total + product.price)

/-- One step of the inventory update, `products_db[pid].stock -= 1`:
decrement the stock of the binding of `pid`.  (On a missing key Python would
raise `KeyError`; here it is a no-op, but `create_order` only runs this loop
on ids that validation just found in the dict.) -/
def decStock : List (String × Product) → String → List (String × Product)
  | [], _ => []
  | (k, p) :: rest, pid =>
    if k = pid then (k, { p with stock := p.stock - 1 }) :: rest
    else (k, p) :: decStock rest pid

/-- The inventory-update loop of `create_order`:
`for pid in product_ids: products_db[pid].stock -= 1`. -/
def decrementAll (db : List (String × Product)) :
    List String → List (String × Product)
  | [] => db
  | pid :: rest => decrementAll (decStock db pid) rest

/-- Handler `create_order`.  `order_id` stands for `str(uuid4())` and
`payment_success` for the random outcome of `process_payment`; the handler
validates and totals, then runs payment, then decrements stock, builds the
order with status "completed", stores it and returns it.  Every raise
happens before any mutation, so each error branch returns the entry state. -/
def create_order (st : AppState) (product_ids : List String)
    (order_id : String) (payment_success : Bool) :
    Except HTTPException Order × AppState :=
  match computeTotal st.products_db product_ids 0 with
  | .error e => (.error e, st)
  | .ok total =>
    if payment_success then
      let order : Order :=
        { id := order_id, products := product_ids, total := total,
          status := "completed" }
      (.ok order,
        { products_db := decrementAll st.products_db product_ids,
          orders_db := dbInsert st.orders_db order_id order })
    else
      (.error ⟨400, "Payment failed"⟩, st)

/-- Handler `get_order`: 404 if the id is absent, otherwise return the stored
order; the state is untouched. -/
def get_order (st : AppState) (order_id : String) :
    Except HTTPException Order × AppState :=
  match dbLookup st.orders_db order_id with
  | none => (.error ⟨404, "Order not found"⟩, st)
  | some o => (.ok o, st)

/-- Handler `stress_test`: accumulate `i * random.random()` for
`i in range(1000000)` (the random floats are the input stream `rands`) and
return status "completed" with the result; the dicts are untouched. -/
def stress_test (st : AppState) (rands : Nat → ℚ) :
    (String × ℚ) × AppState :=
  (("completed",
      (List.range 1000000).foldl
        (fun (result : ℚ) (i : Nat) => result + (i : ℚ) * rands i) 0),
    st)

/-- Whether `pid` passes the per-product validation of `create_order`: present in the
dict with positive stock. -/
def productOk (db : List (String × Product)) (pid : String) : Bool :=
  match dbLookup db pid with
  | none => false
  | some product => decide (0 < product.stock)

/-- Every listed id passes validation (so the loop reaches payment). -/
def validRequest (db : List (String × Product)) (pids : List String) : Bool :=
  pids.all (productOk db)

/-- Sum of the unit prices of the listed ids at the prices currently in the
dict (an absent id contributes 0; under `validRequest` none is absent). -/
def priceSum (db : List (String × Product)) : List String → ℚ
  | [] => 0
  | pid :: rest =>
    (match dbLookup db pid with
     | none => 0
     | some product => product.price) + priceSum db rest

/-- Number of occurrences of `k` in the request list. -/
def countOcc : List String → String → Nat
  | [], _ => 0
  | pid :: rest, k => (if pid = k then 1 else 0) + countOcc rest k

/-- Every stored order has status "completed". -/
def ordersInv (db : List (String × Order)) : Prop :=
  ∀ k o, dbLookup db k = some o → o.status = "completed"

/-- Every stored product has non-negative price and non-negative stock. -/
def productsInv (db : List (String × Product)) : Prop :=
  ∀ k p, dbLookup db k = some p → 0 ≤ p.price ∧ 0 ≤ p.stock

/-! ### Concrete states used to instantiate the theorems -/

/-- A product with one unit in stock. -/
def demoProduct : Product := ⟨"p1", "Widget", 10, 1⟩

/-- A state holding only `demoProduct`. -/
def demoState : AppState := ⟨[("p1", demoProduct)], []⟩

/-- A state holding a product that is out of stock. -/
def oosState : AppState := ⟨[("p1", ⟨"p1", "Widget", 10, 0⟩)], []⟩

/-- A completed order for one unit of `demoProduct`. -/
def demoOrder : Order := ⟨"o1", ["p1"], 10, "completed"⟩

/-- State `demoState` with `demoOrder` stored. -/
def demoStateWithOrder : AppState :=
  ⟨[("p1", demoProduct)], [("o1", demoOrder)]⟩

/-- A product record with negative price and stock, as the unvalidated
product-creation endpoint accepts. -/
def badProduct : Product := ⟨"px", "Bad", -1, -1⟩

/-! ### Dictionary lemmas -/

theorem dbLookup_dbInsert (db : List (String × α)) (k k' : String) (v : α) :
    dbLookup (dbInsert db k v) k' =
      if k = k' then some v else dbLookup db k' := by
  induction db with
  | nil => simp [dbInsert, dbLookup]
  | cons hd tl ih =>
    obtain ⟨a, w⟩ := hd
    rw [dbInsert]
    by_cases hak : a = k
    · rw [if_pos hak]
      subst hak
      by_cases hk : a = k' <;> simp [dbLookup, hk]
    · rw [if_neg hak]
      show (if a = k' then some w else dbLookup (dbInsert tl k v) k') =
        if k = k' then some v
        else if a = k' then some w else dbLookup tl k'
      by_cases ha : a = k'
      · have hkk' : ¬ k = k' := fun hc => hak (by rw [ha, ← hc])
        rw [if_pos ha, if_neg hkk', if_pos ha]
      · rw [if_neg ha, ih]
        by_cases hk : k = k'
        · rw [if_pos hk, if_pos hk]
        · rw [if_neg hk, if_neg hk, if_neg ha]

theorem dbLookup_decStock (db : List (String × Product)) (pid k : String) :
    dbLookup (decStock db pid) k =
      if k = pid then
        (dbLookup db k).map fun p => { p with stock := p.stock - 1 }
      else dbLookup db k := by
  induction db with
  | nil => by_cases h : k = pid <;> simp [decStock, dbLookup, h]
  | cons hd tl ih =>
    obtain ⟨a, w⟩ := hd
    rw [decStock]
    by_cases hap : a = pid
    · rw [if_pos hap]
      by_cases hak : a = k
      · have hkp : k = pid := by rw [← hak, hap]
        simp [dbLookup, hak, hkp]
      · have hne : ¬ k = pid := fun hc => hak (by rw [hap, ← hc])
        simp [dbLookup, hak, hne]
    · rw [if_neg hap]
      by_cases hak : a = k
      · have hne : ¬ k = pid := fun hc => hap (by rw [hak, hc])
        simp [dbLookup, hak, hne]
      · simp [dbLookup, hak, ih]

theorem countOcc_eq_zero_of_not_mem {pids : List String} {k : String}
    (h : k ∉ pids) : countOcc pids k = 0 := by
  induction pids with
  | nil => rfl
  | cons pid rest ih =>
    have h1 : pid ≠ k := fun hc => h (hc ▸ List.mem_cons_self pid rest)
    have h2 : k ∉ rest := fun hc => h (List.mem_cons_of_mem pid hc)
    simp [countOcc, h1, ih h2]

theorem mem_of_countOcc_pos {pids : List String} {k : String}
    (h : countOcc pids k ≠ 0) : k ∈ pids := by
  by_contra hc
  exact h (countOcc_eq_zero_of_not_mem hc)

theorem countOcc_le_one_of_nodup {pids : List String} (h : pids.Nodup)
    (k : String) : countOcc pids k ≤ 1 := by
  induction pids with
  | nil => simp [countOcc]
  | cons pid rest ih =>
    obtain ⟨hnot, hrest⟩ := List.nodup_cons.mp h
    by_cases hk : pid = k
    · subst hk
      simp [countOcc, countOcc_eq_zero_of_not_mem hnot]
    · simpa [countOcc, hk] using ih hrest

theorem dbLookup_decrementAll (db : List (String × Product))
    (pids : List String) (k : String) :
    dbLookup (decrementAll db pids) k =
      (dbLookup db k).map fun p =>
        { p with stock := p.stock - countOcc pids k } := by
  induction pids generalizing db with
  | nil =>
    cases h : dbLookup db k <;> simp [decrementAll, countOcc, h]
  | cons pid rest ih =>
    rw [decrementAll, ih, dbLookup_decStock]
    by_cases hk : k = pid
    · rw [if_pos hk]
      have hpk : pid = k := hk.symm
      cases h : dbLookup db k with
      | none => simp [countOcc]
      | some p =>
        simp only [Option.map_some, countOcc, if_pos hpk]
        have harith : p.stock - 1 - (countOcc rest k : Int) =
            p.stock - ((1 + countOcc rest k : Nat) : Int) := by
          push_cast
          ring
        simp [harith]
    · rw [if_neg hk]
      have hk' : ¬ pid = k := fun hc => hk hc.symm
      cases h : dbLookup db k <;> simp [countOcc, hk']

/-! ### Validation-loop lemmas -/

theorem productOk_iff (db : List (String × Product)) (pid : String) :
    productOk db pid = true ↔
      ∃ p, dbLookup db pid = some p ∧ 0 < p.stock := by
  unfold productOk
  cases h : dbLookup db pid <;> simp

theorem validRequest_cons (db : List (String × Product)) (pid : String)
    (rest : List String) :
    validRequest db (pid :: rest) = true ↔
      productOk db pid = true ∧ validRequest db rest = true := by
  simp [validRequest, List.all_cons]

theorem computeTotal_append (db : List (String × Product))
    (xs ys : List String) (acc : ℚ) (h : validRequest db xs = true) :
    computeTotal db (xs ++ ys) acc =
      computeTotal db ys (acc + priceSum db xs) := by
  induction xs generalizing acc with
  | nil => simp [priceSum]
  | cons pid rest ih =>
    obtain ⟨hok, hrest⟩ := (validRequest_cons db pid rest).mp h
    obtain ⟨p, hp, hpos⟩ := (productOk_iff db pid).mp hok
    have harith : acc + priceSum db (pid :: rest) =
        acc + p.price + priceSum db rest := by
      simp only [priceSum, hp]
      ring
    rw [harith]
    have hstep : computeTotal db ((pid :: rest) ++ ys) acc =
        computeTotal db (rest ++ ys) (acc + p.price) := by
      simp only [List.cons_append, computeTotal, hp]
      rw [if_neg (not_le.mpr hpos)]
      rfl
    rw [hstep]
    exact ih _ hrest

theorem computeTotal_ok_of_valid (db : List (String × Product))
    (pids : List String) (acc : ℚ) (h : validRequest db pids = true) :
    computeTotal db pids acc = .ok (acc + priceSum db pids) := by
  have := computeTotal_append db pids [] acc h
  simpa [computeTotal] using this

theorem valid_of_computeTotal_ok (db : List (String × Product))
    (pids : List String) (acc t : ℚ)
    (h : computeTotal db pids acc = .ok t) :
    validRequest db pids = true := by
  induction pids generalizing acc with
  | nil => simp [validRequest]
  | cons pid rest ih =>
    rw [validRequest_cons]
    rw [computeTotal] at h
    split at h
    · exact absurd h (by simp)
    · rename_i p hp
      split at h
      · exact absurd h (by simp)
      · rename_i hs
        exact ⟨(productOk_iff db pid).mpr ⟨p, hp, not_le.mp hs⟩, ih _ h⟩

/-! ### The success path of `create_order` in closed form -/

theorem create_order_ok (st : AppState) (pids : List String) (oid : String)
    (h : validRequest st.products_db pids = true) :
    create_order st pids oid true =
      (.ok ⟨oid, pids, priceSum st.products_db pids, "completed"⟩,
        ⟨decrementAll st.products_db pids,
          dbInsert st.orders_db oid
            ⟨oid, pids, priceSum st.products_db pids, "completed"⟩⟩) := by
  rw [create_order, computeTotal_ok_of_valid _ _ _ h]
  simp

/-- Any failing run of `create_order` returns the entry state: every raise in
the handler happens before the inventory update and the store. -/
theorem create_order_error_state (st : AppState) (pids : List String)
    (oid : String) (pay : Bool) (e : HTTPException)
    (h : (create_order st pids oid pay).1 = .error e) :
    (create_order st pids oid pay).2 = st := by
  rw [create_order] at h ⊢
  cases hct : computeTotal st.products_db pids 0 with
  | error e' => rfl
  | ok t =>
    cases pay with
    | false => rfl
    | true =>
      rw [hct] at h
      simp at h

/-- The product dict after `create_order`: either untouched (failure) or the
decremented dict, in which case validation succeeded. -/
theorem create_order_products_cases (st : AppState) (pids : List String)
    (oid : String) (pay : Bool) :
    (create_order st pids oid pay).2.products_db = st.products_db ∨
    (validRequest st.products_db pids = true ∧
      (create_order st pids oid pay).2.products_db =
        decrementAll st.products_db pids) := by
  rw [create_order]
  cases hct : computeTotal st.products_db pids 0 with
  | error e => exact Or.inl rfl
  | ok t =>
    cases pay with
    | false => exact Or.inl rfl
    | true => exact Or.inr ⟨valid_of_computeTotal_ok _ _ _ _ hct, rfl⟩

/-- The order dict after `create_order`: either untouched or with one order
of status "completed" stored under the new id. -/
theorem create_order_orders_cases (st : AppState) (pids : List String)
    (oid : String) (pay : Bool) :
    (create_order st pids oid pay).2.orders_db = st.orders_db ∨
    ∃ t, (create_order st pids oid pay).2.orders_db =
      dbInsert st.orders_db oid ⟨oid, pids, t, "completed"⟩ := by
  rw [create_order]
  cases hct : computeTotal st.products_db pids 0 with
  | error e => exact Or.inl rfl
  | ok t =>
    cases pay with
    | false => exact Or.inl rfl
    | true => exact Or.inr ⟨t, rfl⟩

/-- Handler `create_product` never touches the order dict. -/
theorem create_product_orders_db (st : AppState) (p : Product) :
    (create_product st p).2.orders_db = st.orders_db := by
  rw [create_product]
  split <;> rfl

/-- Handler `get_order` never touches the state. -/
theorem get_order_state (st : AppState) (oid : String) :
    (get_order st oid).2 = st := by
  rw [get_order]
  split <;> rfl

/-- Handler `stress_test` never touches the state. -/
theorem stress_test_state (st : AppState) (rands : Nat → ℚ) :
    (stress_test st rands).2 = st := rfl

/-- A member of a valid request list passes the per-product check. -/
theorem validRequest_mem {db : List (String × Product)} {pids : List String}
    {k : String} (h : validRequest db pids = true) (hm : k ∈ pids) :
    productOk db k = true := by
  induction pids with
  | nil => cases hm
  | cons pid rest ih =>
    obtain ⟨hok, hrest⟩ := (validRequest_cons db pid rest).mp h
    rcases List.mem_cons.mp hm with hk | hk
    · rw [hk]; exact hok
    · exact ih hrest hk

/-- Inserting a "completed" order preserves `ordersInv`. -/
theorem ordersInv_insert {db : List (String × Order)} {oid : String}
    {o : Order} (h : ordersInv db) (ho : o.status = "completed") :
    ordersInv (dbInsert db oid o) := by
  intro k o' hk
  rw [dbLookup_dbInsert] at hk
  by_cases hko : oid = k
  · rw [if_pos hko] at hk
    cases hk
    exact ho
  · rw [if_neg hko] at hk
    exact h k o' hk

/-! ### Claim theorems -/

/-- C1: when every listed product id is present with positive stock and the
simulated payment succeeds, `create_order` returns an order whose total is
the sum of the unit prices at request time and whose status is "completed";
each product's stock drops by exactly its number of occurrences in the
request list, and the order stored under the new id equals the returned
order. -/
theorem create_order_success (st : AppState) (pids : List String)
    (oid : String) (h : validRequest st.products_db pids = true) :
    ∃ order st',
      create_order st pids oid true = (.ok order, st') ∧
      (∀ k, dbLookup st'.products_db k =
        (dbLookup st.products_db k).map fun p =>
          { p with stock := p.stock - countOcc pids k }) ∧
      order.products = pids ∧
      order.total = priceSum st.products_db pids ∧
      order.status = "completed" ∧
      dbLookup st'.orders_db oid = some order := by
  rw [create_order_ok st pids oid h]
  refine ⟨_, _, rfl, fun k => dbLookup_decrementAll _ _ _, rfl, rfl, rfl, ?_⟩
  rw [dbLookup_dbInsert]
  simp

/-- Witness for C1: a concrete one-product order on `demoState`. -/
theorem create_order_success_witness :
    validRequest demoState.products_db ["p1"] = true ∧
    (∃ order st',
      create_order demoState ["p1"] "o1" true = (.ok order, st') ∧
      (∀ k, dbLookup st'.products_db k =
        (dbLookup demoState.products_db k).map fun p =>
          { p with stock := p.stock - countOcc ["p1"] k }) ∧
      order.products = ["p1"] ∧
      order.total = priceSum demoState.products_db ["p1"] ∧
      order.status = "completed" ∧
      dbLookup st'.orders_db "o1" = some order) :=
  ⟨by decide, create_order_success demoState ["p1"] "o1" (by decide)⟩

/-- C2: whenever `create_order` fails (unknown id, stock ≤ 0, or payment
declined), the product dict and the order dict are exactly the entry ones:
no stock count changes and no order is stored. -/
theorem create_order_error_preserves_state (st : AppState)
    (pids : List String) (oid : String) (pay : Bool) (e : HTTPException)
    (h : (create_order st pids oid pay).1 = .error e) :
    (create_order st pids oid pay).2 = st :=
  create_order_error_state st pids oid pay e h

/-- Witness for C2: ordering an unknown product from the empty initial state
fails and leaves the state untouched. -/
theorem create_order_error_preserves_state_witness :
    (create_order initialState ["p1"] "o1" true).2 = initialState :=
  create_order_error_preserves_state initialState ["p1"] "o1" true
    ⟨404, "Product p1 not found"⟩ (by decide)

/-- C9: an order listing the same id more often than that product's stock
still passes validation (stock is only compared with zero, never with the
occurrence count), so with a successful payment the order completes and the
product's stock goes negative. -/
theorem create_order_oversell (st : AppState) (pids : List String)
    (oid k : String) (p : Product)
    (hvalid : validRequest st.products_db pids = true)
    (hp : dbLookup st.products_db k = some p)
    (hcnt : p.stock < (countOcc pids k : Int)) :
    ∃ order st',
      create_order st pids oid true = (.ok order, st') ∧
      order.status = "completed" ∧
      ∃ p', dbLookup st'.products_db k = some p' ∧ p'.stock < 0 := by
  rw [create_order_ok st pids oid hvalid]
  refine ⟨_, _, rfl, rfl, { p with stock := p.stock - countOcc pids k },
    ?_, ?_⟩
  · rw [dbLookup_decrementAll, hp]
    rfl
  · simpa using hcnt

/-- Witness for C9: stock 1, request ["p1", "p1"]: the order completes and
stock ends at -1. -/
theorem create_order_oversell_witness :
    validRequest demoState.products_db ["p1", "p1"] = true ∧
    dbLookup demoState.products_db "p1" = some demoProduct ∧
    demoProduct.stock < (countOcc ["p1", "p1"] "p1" : Int) ∧
    (∃ order st',
      create_order demoState ["p1", "p1"] "o1" true = (.ok order, st') ∧
      order.status = "completed" ∧
      ∃ p', dbLookup st'.products_db "p1" = some p' ∧ p'.stock < 0) :=
  ⟨by decide, by decide, by decide,
    create_order_oversell demoState ["p1", "p1"] "o1" "p1" demoProduct
      (by decide) (by decide) (by decide)⟩

/-- C10: an order with an empty id list always passes validation; with a
successful payment it returns and stores an order with empty product list,
total 0 and status "completed", and the product dict is unchanged. -/
theorem create_order_empty_list (st : AppState) (oid : String) :
    computeTotal st.products_db [] 0 = .ok 0 ∧
    create_order st [] oid true =
      (.ok ⟨oid, [], 0, "completed"⟩,
        ⟨st.products_db,
          dbInsert st.orders_db oid ⟨oid, [], 0, "completed"⟩⟩) ∧
    dbLookup (create_order st [] oid true).2.orders_db oid =
      some ⟨oid, [], 0, "completed"⟩ := by
  refine ⟨rfl, rfl, ?_⟩
  have h : (create_order st [] oid true).2.orders_db =
      dbInsert st.orders_db oid ⟨oid, [], 0, "completed"⟩ := rfl
  rw [h, dbLookup_dbInsert]
  simp

/-- Counterexample to C3 as stated: in `oosState` the id "p2" is absent from
the product dict, yet the request ["p1", "p2"] yields 400, not 404, because
the out-of-stock check on the earlier id "p1" fires first. -/
theorem create_order_unknown_id_cex :
    dbLookup oosState.products_db "p2" = none ∧
    (create_order oosState ["p1", "p2"] "o1" true).1 =
      .error ⟨400, "Product " ++ "p1" ++ " out of stock"⟩ :=
  ⟨by decide, by decide⟩

/-- C3 (amended): if the request list contains an id absent from the product
dict and every id before the first absent one is present with positive
stock, `create_order` yields a 404 not-found error. -/
theorem create_order_unknown_id (st : AppState) (pre post : List String)
    (pid oid : String) (pay : Bool)
    (hpre : validRequest st.products_db pre = true)
    (habs : dbLookup st.products_db pid = none) :
    (create_order st (pre ++ pid :: post) oid pay).1 =
      .error ⟨404, "Product " ++ pid ++ " not found"⟩ := by
  rw [create_order,
    computeTotal_append st.products_db pre (pid :: post) 0 hpre,
    computeTotal, habs]

/-- Witness for C3 (amended): "p1" is in stock but "p2" does not exist. -/
theorem create_order_unknown_id_witness :
    validRequest demoState.products_db ["p1"] = true ∧
    dbLookup demoState.products_db "p2" = none ∧
    (create_order demoState (["p1"] ++ "p2" :: []) "o1" true).1 =
      .error ⟨404, "Product " ++ "p2" ++ " not found"⟩ :=
  ⟨by decide, by decide,
    create_order_unknown_id demoState ["p1"] [] "p2" "o1" true
      (by decide) (by decide)⟩

/-- C5: creating a product whose id is already present yields 400 and leaves
the whole state (in particular the stored record) unchanged; creating one
with a fresh id stores the submitted record verbatim — no field altered, no
range check — returns it, and touches no other key. -/
theorem create_product_spec (st : AppState) (p : Product) :
    ((dbLookup st.products_db p.id).isSome = true →
      create_product st p =
        (.error ⟨400, "Product ID already exists"⟩, st)) ∧
    (dbLookup st.products_db p.id = none →
      create_product st p =
        (.ok p, ⟨dbInsert st.products_db p.id p, st.orders_db⟩) ∧
      dbLookup (create_product st p).2.products_db p.id = some p ∧
      ∀ k, k ≠ p.id →
        dbLookup (create_product st p).2.products_db k =
          dbLookup st.products_db k) := by
  constructor
  · intro hdup
    rw [create_product, if_pos hdup]
  · intro hfresh
    have hno : ¬ (dbLookup st.products_db p.id).isSome = true := by
      rw [hfresh]
      simp
    have heq : create_product st p =
        (.ok p, ⟨dbInsert st.products_db p.id p, st.orders_db⟩) := by
      rw [create_product, if_neg hno]
    refine ⟨heq, ?_, ?_⟩
    · rw [heq, dbLookup_dbInsert]
      simp
    · intro k hk
      rw [heq]
      show dbLookup (dbInsert st.products_db p.id p) k = _
      rw [dbLookup_dbInsert, if_neg fun hc => hk hc.symm]

/-- Witness for C5: duplicate creation on `demoState`, fresh creation on the
empty initial state. -/
theorem create_product_spec_witness :
    (create_product demoState demoProduct =
      (.error ⟨400, "Product ID already exists"⟩, demoState)) ∧
    (create_product initialState demoProduct =
        (.ok demoProduct,
          ⟨dbInsert initialState.products_db demoProduct.id demoProduct,
            initialState.orders_db⟩) ∧
      dbLookup (create_product initialState demoProduct).2.products_db
        demoProduct.id = some demoProduct ∧
      ∀ k, k ≠ demoProduct.id →
        dbLookup (create_product initialState demoProduct).2.products_db k =
          dbLookup initialState.products_db k) :=
  ⟨(create_product_spec demoState demoProduct).1 (by decide),
    (create_product_spec initialState demoProduct).2 (by decide)⟩

/-- C6: `get_order` yields 404 exactly on ids absent from the order dict,
returns the stored order on present ids, and never changes the state. -/
theorem get_order_spec (st : AppState) (oid : String) :
    (dbLookup st.orders_db oid = none →
      (get_order st oid).1 = .error ⟨404, "Order not found"⟩) ∧
    (∀ o, dbLookup st.orders_db oid = some o →
      (get_order st oid).1 = .ok o) ∧
    (get_order st oid).2 = st := by
  refine ⟨?_, ?_, get_order_state st oid⟩
  · intro h
    rw [get_order, h]
  · intro o h
    rw [get_order, h]

/-- Witness for C6: "o2" is absent and "o1" stored in `demoStateWithOrder`. -/
theorem get_order_spec_witness :
    (get_order demoStateWithOrder "o2").1 =
      .error ⟨404, "Order not found"⟩ ∧
    (get_order demoStateWithOrder "o1").1 = .ok demoOrder :=
  ⟨(get_order_spec demoStateWithOrder "o2").1 (by decide),
    (get_order_spec demoStateWithOrder "o1").2.1 demoOrder (by decide)⟩

/-- C7: the order dict starts empty, every operation preserves the invariant
that each stored order has status "completed", and a failing `create_order`
stores nothing. -/
theorem orders_status_completed_invariant :
    ordersInv initialState.orders_db ∧
    (∀ st p, ordersInv st.orders_db →
      ordersInv (create_product st p).2.orders_db) ∧
    (∀ st pids oid pay, ordersInv st.orders_db →
      ordersInv (create_order st pids oid pay).2.orders_db) ∧
    (∀ st oid, ordersInv st.orders_db →
      ordersInv (get_order st oid).2.orders_db) ∧
    (∀ st rands, ordersInv st.orders_db →
      ordersInv (stress_test st rands).2.orders_db) ∧
    (∀ st pids oid pay e, (create_order st pids oid pay).1 = .error e →
      (create_order st pids oid pay).2.orders_db = st.orders_db) := by
  refine ⟨?_, ?_, ?_, ?_, ?_, ?_⟩
  · intro k o h
    exact absurd h (by simp [initialState, dbLookup])
  · intro st p h
    rw [create_product_orders_db]
    exact h
  · intro st pids oid pay h
    rcases create_order_orders_cases st pids oid pay with heq | ⟨t, heq⟩
    · rw [heq]
      exact h
    · rw [heq]
      exact ordersInv_insert h rfl
  · intro st oid h
    rw [get_order_state]
    exact h
  · intro st rands h
    rw [stress_test_state]
    exact h
  · intro st pids oid pay e h
    rw [create_order_error_state st pids oid pay e h]

/-- Witness for C7: the invariant survives a successful order placed from
the empty initial state. -/
theorem orders_status_completed_invariant_witness :
    ordersInv (create_order initialState [] "o1" true).2.orders_db :=
  orders_status_completed_invariant.2.2.1 initialState [] "o1" true
    orders_status_completed_invariant.1

/-- C8: no operation removes a product binding, and the only field any
operation ever changes in a stored product is `stock` (and only
`create_order` changes it): `get_order` and `stress_test` leave the product
dict equal, `create_product` leaves every existing binding equal, and
`create_order` keeps each binding present with id, name and price equal. -/
theorem products_frame :
    (∀ st oid, (get_order st oid).2.products_db = st.products_db) ∧
    (∀ st rands, (stress_test st rands).2.products_db = st.products_db) ∧
    (∀ st p k q, dbLookup st.products_db k = some q →
      dbLookup (create_product st p).2.products_db k = some q) ∧
    (∀ st pids oid pay k q, dbLookup st.products_db k = some q →
      ∃ q', dbLookup (create_order st pids oid pay).2.products_db k =
          some q' ∧
        q'.id = q.id ∧ q'.name = q.name ∧ q'.price = q.price) := by
  refine ⟨?_, ?_, ?_, ?_⟩
  · intro st oid
    rw [get_order_state]
  · intro st rands
    rw [stress_test_state]
  · intro st p k q hq
    rw [create_product]
    by_cases hdup : (dbLookup st.products_db p.id).isSome = true
    · rw [if_pos hdup]
      exact hq
    · rw [if_neg hdup]
      show dbLookup (dbInsert st.products_db p.id p) k = some q
      rw [dbLookup_dbInsert]
      by_cases hk : p.id = k
      · rw [← hk] at hq
        rw [hq] at hdup
        exact absurd rfl hdup
      · rw [if_neg hk]
        exact hq
  · intro st pids oid pay k q hq
    rcases create_order_products_cases st pids oid pay with heq | ⟨-, heq⟩
    · exact ⟨q, by rw [heq, hq], rfl, rfl, rfl⟩
    · refine ⟨{ q with stock := q.stock - countOcc pids k }, ?_, rfl, rfl, rfl⟩
      rw [heq, dbLookup_decrementAll, hq]
      rfl

/-- Witness for C8: a successful order on `demoState` keeps the binding of
"p1" with its id, name and price. -/
theorem products_frame_witness :
    ∃ q', dbLookup
        (create_order demoState ["p1"] "o1" true).2.products_db "p1" =
        some q' ∧
      q'.id = demoProduct.id ∧ q'.name = demoProduct.name ∧
      q'.price = demoProduct.price :=
  products_frame.2.2.2 demoState ["p1"] "o1" true "p1" demoProduct (by decide)

/-- Counterexample to C4 as stated: from the (vacuously invariant-holding)
initial state, `create_product` stores a record with negative price and
negative stock — no range validation is applied. -/
theorem nonneg_invariant_cex :
    (create_product initialState badProduct).1 = .ok badProduct ∧
    dbLookup (create_product initialState badProduct).2.products_db "px" =
      some badProduct ∧
    badProduct.price < 0 ∧ badProduct.stock < 0 :=
  ⟨by decide, by decide, by decide, by decide⟩

/-- C4 (amended): non-negative price and stock of all stored products is
preserved by order lookup and the stress endpoint always, by product
creation when the submitted record itself has non-negative price and stock,
and by order creation when the request list holds no duplicates; it is not
enforced in general, since product creation applies no range validation and
duplicated ids can drive stock negative. -/
theorem nonneg_invariant_amended :
    (∀ st oid, productsInv st.products_db →
      productsInv (get_order st oid).2.products_db) ∧
    (∀ st rands, productsInv st.products_db →
      productsInv (stress_test st rands).2.products_db) ∧
    (∀ st p, productsInv st.products_db → 0 ≤ p.price → 0 ≤ p.stock →
      productsInv (create_product st p).2.products_db) ∧
    (∀ st pids oid pay, productsInv st.products_db → pids.Nodup →
      productsInv (create_order st pids oid pay).2.products_db) := by
  refine ⟨?_, ?_, ?_, ?_⟩
  · intro st oid h
    rw [get_order_state]
    exact h
  · intro st rands h
    rw [stress_test_state]
    exact h
  · intro st p h hprice hstock k q hq
    rw [create_product] at hq
    by_cases hdup : (dbLookup st.products_db p.id).isSome = true
    · rw [if_pos hdup] at hq
      exact h k q hq
    · rw [if_neg hdup] at hq
      have hq' : dbLookup (dbInsert st.products_db p.id p) k = some q := hq
      rw [dbLookup_dbInsert] at hq'
      by_cases hk : p.id = k
      · rw [if_pos hk] at hq'
        cases hq'
        exact ⟨hprice, hstock⟩
      · rw [if_neg hk] at hq'
        exact h k q hq'
  · intro st pids oid pay h hnodup k q hq
    rcases create_order_products_cases st pids oid pay with heq | ⟨hvalid, heq⟩
    · rw [heq] at hq
      exact h k q hq
    · rw [heq, dbLookup_decrementAll] at hq
      cases hp : dbLookup st.products_db k with
      | none => rw [hp] at hq; cases hq
      | some p =>
        rw [hp] at hq
        cases hq
        obtain ⟨hprice, hstock⟩ := h k p hp
        refine ⟨hprice, ?_⟩
        by_cases hc0 : countOcc pids k = 0
        · rw [hc0]
          simpa using hstock
        · have hk : k ∈ pids := mem_of_countOcc_pos hc0
          obtain ⟨p', hp', hpos⟩ :=
            (productOk_iff st.products_db k).mp (validRequest_mem hvalid hk)
          rw [hp] at hp'
          cases hp'
          have hle := countOcc_le_one_of_nodup hnodup k
          simp only []
          omega

/-- Witness for C4 (amended): a duplicate-free successful order on
`demoState` keeps the invariant. -/
theorem nonneg_invariant_amended_witness :
    productsInv (create_order demoState ["p1"] "o1" true).2.products_db :=
  nonneg_invariant_amended.2.2.2 demoState ["p1"] "o1" true
    (fun k p hp => by
      have : (if "p1" = k then some demoProduct else none) = some p := hp
      by_cases hk : "p1" = k
      · rw [if_pos hk] at this
        cases this
        exact ⟨by decide, by decide⟩
      · rw [if_neg hk] at this
        cases this)
    (by decide)

end FastapiApp
